import Mathlib

/-!
Verification development for the firmware-upload engine of the arduide
repository (`src/lib/webserial.ts`).  The TypeScript source is shallowly
embedded: strings become `List Char`, `Uint8Array`s become `List Nat`
(each entry < 256 by construction), JavaScript's partial numeric
primitives (`parseInt`, typed-array coercion of `NaN`) become `Option`
valued functions with the explicit JS fallback semantics, and the
effectful upload flow becomes a pure function of a `Device` oracle that
supplies the result of each `port.open` and each `readWithTimeout` call.
-/

namespace Arduide

/-! ## JavaScript primitive semantics -/

/-- `String.prototype.substring(a, b)`: both indices are clamped to
`[0, length]` and swapped when out of order. -/
def jsSubstring (s : List Char) (a b : Nat) : List Char :=
  let a' := min a s.length
  let b' := min b s.length
  (s.drop (min a' b')).take (max a' b' - min a' b')

/-- JS `StrWhiteSpace` characters relevant to `parseInt`. -/
def isJsSpace (c : Char) : Bool :=
  c = ' ' || c = '\t' || c = '\n' || c = '\r' ||
  c = '\x0b' || c = '\x0c' || c = ' '

/-- Value of one hexadecimal digit character, if it is one. -/
def hexDigitVal (c : Char) : Option Nat :=
  if '0' ≤ c ∧ c ≤ '9' then some (c.toNat - '0'.toNat)
  else if 'a' ≤ c ∧ c ≤ 'f' then some (c.toNat - 'a'.toNat + 10)
  else if 'A' ≤ c ∧ c ≤ 'F' then some (c.toNat - 'A'.toNat + 10)
  else none

/-- Longest run of hex digits at the front of the string. -/
def hexDigitRun : List Char → List Nat
  | [] => []
  | c :: rest =>
    match hexDigitVal c with
    | some d => d :: hexDigitRun rest
    | none => []

/-- Optional sign handling of `parseInt`. -/
def jsSign : List Char → Int × List Char
  | '-' :: r => (-1, r)
  | '+' :: r => (1, r)
  | s => (1, s)

/-- Radix-16 `parseInt` strips a leading `0x`/`0X`. -/
def jsStripHexMark : List Char → List Char
  | '0' :: 'x' :: r => r
  | '0' :: 'X' :: r => r
  | s => s

/-- `parseInt(s, 16)`: skip whitespace, optional sign, optional `0x`
mark, then the maximal run of hex digits; `none` models `NaN`. -/
def jsParseIntHex (s : List Char) : Option Int :=
  let s1 := s.dropWhile (fun c => isJsSpace c)
  let p := jsSign s1
  let ds := hexDigitRun (jsStripHexMark p.2)
  if ds = [] then none
  else some (p.1 * ds.foldl (fun a d => 16 * a + (d : Int)) 0)

/-- `ToUint8` as performed by the `Uint8Array` constructor on each
element: `NaN` becomes `0`, integers are reduced mod 256. -/
def toUint8 : Option Int → Nat
  | none => 0
  | some n => (n % 256).toNat

/-- Number of iterations of `for (let i = 0; i < n; i++)` when `n` is
the result of a `parseInt` (`NaN` and negative values give zero). -/
def jsLoopCount : Option Int → Nat
  | none => 0
  | some n => n.toNat

/-- `String.prototype.includes`. -/
def jsIncludes (s sub : List Char) : Bool :=
  (List.range (s.length + 1)).any (fun i => sub.isPrefixOf (s.drop i))

/-- `includes` lifted to Lean `String`s. -/
def strIncludes (s sub : String) : Bool := jsIncludes s.data sub.data

/-- `String.prototype.split('\n')` (keeps empty segments). -/
def splitLines : List Char → List (List Char)
  | [] => [[]]
  | c :: rest =>
    if c = '\n' then [] :: splitLines rest
    else
      match splitLines rest with
      | [] => [[c]]
      | l :: ls => (c :: l) :: ls

/-! ## HEX Image Loader (`parseHexFile`, webserial.ts:88-101) -/

/-- Bytes contributed by one `:`-line: the loop body of `parseHexFile`.
`byteCount` is read from chars 1-3, `recordType` from chars 7-9; only
record type 0 pushes `byteCount` decoded payload entries. -/
def hexLineBytes (line : List Char) : List Nat :=
  let byteCount := jsParseIntHex (jsSubstring line 1 3)
  let recordType := jsParseIntHex (jsSubstring line 7 9)
  if recordType = some 0 then
    (List.range (jsLoopCount byteCount)).map
      (fun i => toUint8 (jsParseIntHex (jsSubstring line (9 + i * 2) (11 + i * 2))))
  else []

/-- `parseHexFile`: split on newlines, keep lines starting with `:`,
accumulate each line's contribution in file order. -/
def parseHexFile (hexContent : List Char) : List Nat :=
  let lines := (splitLines hexContent).filter (fun line => line.head? = some ':')
  lines.foldl (fun data line => data ++ hexLineBytes line) []

/-! ## Board registry (webserial.ts:30-43) -/

structure ArduinoBoard where
  name : String
  fqbn : String
  uploadProtocol : String
  baudRate : Nat
deriving DecidableEq

def ARDUINO_BOARDS : List ArduinoBoard :=
  [ ⟨"Arduino Uno", "arduino:avr:uno", "stk500v1", 115200⟩,
    ⟨"Arduino Nano", "arduino:avr:nano", "stk500v1", 115200⟩,
    ⟨"Arduino Nano (Old Bootloader)", "arduino:avr:nano:cpu=atmega328old", "stk500v1", 57600⟩,
    ⟨"Arduino Mega", "arduino:avr:mega", "stk500v2", 115200⟩ ]

/-- Candidate baud-rate list (webserial.ts:366-367):
`isOldBootloader ? [57600] : name.includes('Nano') ? [115200, 57600] : [board.baudRate]`. -/
def boardBaudRates (board : ArduinoBoard) : List Nat :=
  if jsIncludes board.fqbn.data "atmega328old".data then [57600]
  else if jsIncludes board.name.data "Nano".data then [115200, 57600]
  else [board.baudRate]

/-! ## STK500v1 constants (webserial.ts:70-77) -/

def STK_OK : Nat := 0x10
def STK_INSYNC : Nat := 0x14
def STK_GET_SYNC : Nat := 0x30
def STK_ENTER_PROGMODE : Nat := 0x50
def STK_LEAVE_PROGMODE : Nat := 0x51
def STK_LOAD_ADDRESS : Nat := 0x55
def STK_PROG_PAGE : Nat := 0x64
def CRC_EOP : Nat := 0x20

/-- The synchronization check (webserial.ts:309 and 136):
`response.includes(STK_INSYNC) && response.includes(STK_OK)`. -/
def syncSuccess (response : List Nat) : Bool :=
  response.contains STK_INSYNC && response.contains STK_OK

/-! ## Page Programmer (webserial.ts:423-478)

The loop body is embedded with the page size as a parameter; the caller
in `uploadToArduino` instantiates it with the constant `128`
(webserial.ts:423). -/

/-- `Math.ceil(len / pageSize)` for a positive page size. -/
def jsCeilDiv (len pageSize : Nat) : Nat := (len + pageSize - 1) / pageSize

/-- `hexData.slice(addr, addr + pageSize)` with `addr = page * pageSize`. -/
def pageSlice (hexData : List Nat) (pageSize page : Nat) : List Nat :=
  (hexData.drop (page * pageSize)).take pageSize

/-- `paddedData`: a full page prefilled with `0xFF` then overwritten
from index 0 with the slice (webserial.ts:432-434). -/
def paddedPage (hexData : List Nat) (pageSize page : Nat) : List Nat :=
  let pd := pageSlice hexData pageSize page
  pd ++ List.replicate (pageSize - pd.length) 0xFF

/-- `addrCmd` (webserial.ts:437-443): word address = byte address `>> 1`,
sent low byte first. -/
def addrCmd (pageSize page : Nat) : List Nat :=
  let wordAddr := Nat.shiftRight (page * pageSize) 1
  [STK_LOAD_ADDRESS, wordAddr % 256, Nat.shiftRight wordAddr 8 % 256, CRC_EOP]

/-- `fullPacket` (webserial.ts:453-463): `PROG_PAGE` header with the
padded length big-endian, flash marker `'F'`, page bytes, `CRC_EOP`. -/
def progPacket (hexData : List Nat) (pageSize page : Nat) : List Nat :=
  let padded := paddedPage hexData pageSize page
  ([STK_PROG_PAGE, Nat.shiftRight padded.length 8 % 256, padded.length % 256, 0x46]
    ++ padded) ++ [CRC_EOP]

/-- The LOAD_ADDRESS/PROG_PAGE command pair issued for each page index. -/
def pageCommands (hexData : List Nat) (pageSize : Nat) : List (List Nat × List Nat) :=
  (List.range (jsCeilDiv hexData.length pageSize)).map
    (fun page => (addrCmd pageSize page, progPacket hexData pageSize page))

/-! ## Progress events (webserial.ts:79-83) -/

inductive Stage
  | connecting | syncing | uploading | verifying | done | error
deriving DecidableEq

/-- Position of a stage in the forward direction of a run; used to state
stage monotonicity. -/
def stageIdx : Stage → Nat
  | .connecting => 0
  | .syncing => 1
  | .uploading => 2
  | .verifying => 3
  | .done => 4
  | .error => 5

structure UploadProgress where
  stage : Stage
  progress : ℚ
  message : String
deriving DecidableEq

/-- `Math.round`: floor of the argument plus one half. -/
def jsRound (q : ℚ) : Int := Int.floor (q + 1 / 2)

/-- Event emitted at webserial.ts:262. -/
def connectingEv (baudRate : Nat) : UploadProgress :=
  ⟨.connecting, 5, "Probando " ++ toString baudRate ++ " baud..."⟩

/-- Event emitted at webserial.ts:284. -/
def syncingEv : UploadProgress :=
  ⟨.syncing, 10, "Sincronizando con bootloader..."⟩

/-- Event emitted at webserial.ts:420. -/
def uploadingEv : UploadProgress :=
  ⟨.uploading, 20, "¡Conectado! Subiendo firmware..."⟩

/-- Per-page event (webserial.ts:472-477):
`progress = 20 + ((page + 1) / totalPages) * 70` (exact rational in the
model; the source computes the same expression in JS numbers). -/
def pageEvent (totalPages page : Nat) : UploadProgress :=
  let ratio : ℚ := ((page : ℚ) + 1) / (totalPages : ℚ)
  let pct := jsRound (ratio * 100)
  ⟨.uploading, 20 + ratio * 70, "Subiendo... " ++ toString pct ++ "%"⟩

def pageEvents (totalPages : Nat) : List UploadProgress :=
  (List.range totalPages).map (fun page => pageEvent totalPages page)

/-- Event emitted at webserial.ts:481. -/
def verifyingEv : UploadProgress := ⟨.verifying, 95, "Finalizando..."⟩

/-- Event emitted at webserial.ts:485. -/
def doneEv : UploadProgress := ⟨.done, 100, "¡Carga exitosa!"⟩

/-! ## Device oracle

The effectful upload flow is deterministic once the outcome of each
`port.open` call and the byte sequence returned by each
`readWithTimeout` call are fixed; a `Device` supplies those.  Reset
pulses, logs and waits have no observable effect in the model. -/

structure Device where
  /-- Whether the `o`-th `port.open` of the run succeeds. -/
  openOk : Nat → Bool
  /-- Bytes returned by the `k`-th `readWithTimeout` of the run. -/
  resp : Nat → List Nat

inductive ResetMethod
  | dtr | rts | combined
deriving DecidableEq

/-- Reset methods tried, in order (webserial.ts:372). -/
def resetMethods : List ResetMethod := [.combined, .dtr, .rts]

/-- The sync-attempt loop (webserial.ts:290-331): up to `fuel` (8)
attempts, each writing `GET_SYNC CRC_EOP` and reading one response.
Returns (synced, next read index, writes issued). -/
def syncAttempts (dev : Device) (k : Nat) : Nat → Bool × Nat × List (List Nat)
  | 0 => (false, k, [])
  | fuel + 1 =>
    let response := dev.resp k
    if syncSuccess response then (true, k + 1, [[STK_GET_SYNC, CRC_EOP]])
    else
      let r := syncAttempts dev (k + 1) fuel
      (r.1, r.2.1, [STK_GET_SYNC, CRC_EOP] :: r.2.2)

structure SyncOutcome where
  success : Bool
  events : List UploadProgress
  tx : List (List Nat)
  reads : Nat
  opens : Nat
deriving DecidableEq

/-- `attemptSync` (webserial.ts:233-343): open the port, emit the
connecting event, reset, drain one read, emit the syncing event, then
run up to 8 sync attempts. On open failure nothing is emitted. -/
def attemptSync (dev : Device) (opens reads : Nat) (baudRate : Nat)
    (_rm : ResetMethod) : SyncOutcome :=
  if dev.openOk opens then
    let r := syncAttempts dev (reads + 1) 8
    { success := r.1
      events := [connectingEv baudRate, syncingEv]
      tx := r.2.2
      reads := r.2.1
      opens := opens + 1 }
  else
    { success := false, events := [], tx := [], reads := reads, opens := opens + 1 }

/-- `(baud, resetMethod)` candidates in search order
(webserial.ts:376-392: outer loop over baud rates, inner over methods). -/
def candidatePairs (board : ArduinoBoard) : List (Nat × ResetMethod) :=
  (boardBaudRates board).flatMap (fun baud => resetMethods.map (fun m => (baud, m)))

structure SearchOutcome where
  connected : Bool
  events : List UploadProgress
  tx : List (List Nat)
  reads : Nat
  opens : Nat
deriving DecidableEq

/-- The candidate search of `uploadToArduino` (webserial.ts:376-392):
try each pair in order, stop at the first success. -/
def trySync (dev : Device) (opens reads : Nat) :
    List (Nat × ResetMethod) → SearchOutcome
  | [] => { connected := false, events := [], tx := [], reads := reads, opens := opens }
  | (baud, m) :: rest =>
    let r := attemptSync dev opens reads baud m
    if r.success then
      { connected := true, events := r.events, tx := r.tx
        reads := r.reads, opens := r.opens }
    else
      let r2 := trySync dev r.opens r.reads rest
      { connected := r2.connected, events := r.events ++ r2.events
        tx := r.tx ++ r2.tx, reads := r2.reads, opens := r2.opens }

/-- Failure message thrown at webserial.ts:401-407. -/
def manualResetMsg : String :=
  "No se pudo conectar con el bootloader.\n\n" ++
  "Prueba el RESET MANUAL:\n" ++
  "1. Mantén presionado el botón RESET\n" ++
  "2. Haz clic en Upload\n" ++
  "3. Suelta RESET cuando veas \"Sincronizando...\""

structure UploadOutcome where
  /-- `none` on success, otherwise the thrown error message. -/
  error : Option String
  events : List UploadProgress
  tx : List (List Nat)
  /-- Number of `readWithTimeout` calls performed; each one has a
  bounded deadline in the source (200-1000 ms). -/
  reads : Nat
deriving DecidableEq

/-- `uploadToArduino` (webserial.ts:345-499): candidate search, then —
once connected — ENTER_PROGMODE, the page loop with the constant page
size 128 (webserial.ts:423), LEAVE_PROGMODE, and the final events. -/
def uploadToArduino (dev : Device) (hexData : List Nat)
    (board : ArduinoBoard) : UploadOutcome :=
  let search := trySync dev 0 0 (candidatePairs board)
  if search.connected then
    let totalPages := jsCeilDiv hexData.length 128
    let pageTx := (List.range totalPages).flatMap
      (fun page => [addrCmd 128 page, progPacket hexData 128 page])
    { error := none
      events := search.events ++ [uploadingEv] ++ pageEvents totalPages
        ++ [verifyingEv, doneEv]
      tx := search.tx ++ [[STK_ENTER_PROGMODE, CRC_EOP]] ++ pageTx
        ++ [[STK_LEAVE_PROGMODE, CRC_EOP]]
      reads := search.reads + 1 + 2 * totalPages + 1 }
  else
    { error := some manualResetMsg, events := search.events
      tx := search.tx, reads := search.reads }

/-! ## Spec-side notions -/

/-- The event stream order demanded by the spec: stages never move
backward and percent never decreases between consecutive events. -/
def eventLe (a b : UploadProgress) : Prop :=
  stageIdx a.stage ≤ stageIdx b.stage ∧ a.progress ≤ b.progress

instance (a b : UploadProgress) : Decidable (eventLe a b) :=
  inferInstanceAs (Decidable (_ ∧ _))

def monotoneEvents (l : List UploadProgress) : Prop := l.Chain' eventLe

/-- Executable version of `monotoneEvents`. -/
def monotoneEventsB : List UploadProgress → Bool
  | [] => true
  | [_] => true
  | a :: b :: t => decide (eventLe a b) && monotoneEventsB (b :: t)

theorem monotoneEvents_iff :
    ∀ l : List UploadProgress, monotoneEvents l ↔ monotoneEventsB l = true
  | [] => by simp [monotoneEvents, monotoneEventsB]
  | [a] => by simp [monotoneEvents, monotoneEventsB]
  | a :: b :: t => by
    have ih := monotoneEvents_iff (b :: t)
    rw [monotoneEvents] at ih ⊢
    simp [monotoneEventsB, List.chain'_cons, ih]

instance (l : List UploadProgress) : Decidable (monotoneEvents l) :=
  decidable_of_decidable_of_iff (monotoneEvents_iff l).symm

/-- Modelled from the spec: "the response bytes contain the in-sync
byte followed anywhere later by the OK byte" — the value `a` occurs and
the value `b` occurs strictly after the first occurrence of `a`. -/
def containsInOrder (a b : Nat) (l : List Nat) : Bool :=
  ((l.dropWhile (fun x => x ≠ a)).drop 1).contains b

/-! ## Canonical Intel-HEX encodings (spec §6: `:BBAAAATT<data>CC`)

Used to quantify over well-formed HEX blobs in the loader claims. -/

/-- Uppercase hexadecimal digit character of a value below 16. -/
def hexChar (n : Nat) : Char :=
  if n < 10 then Char.ofNat ('0'.toNat + n) else Char.ofNat ('A'.toNat + (n - 10))

/-- Two-digit hex field of a byte. -/
def hex2 (n : Nat) : List Char := [hexChar (n / 16), hexChar (n % 16)]

/-- Four-digit hex field of a 16-bit address. -/
def hex4 (n : Nat) : List Char := hex2 (n / 256) ++ hex2 (n % 256)

structure HexRecord where
  recType : Nat
  addr : Nat
  payload : List Nat
  checksum : Nat

def WFRecord (r : HexRecord) : Prop :=
  r.recType < 256 ∧ r.addr < 65536 ∧ r.checksum < 256 ∧
  r.payload.length < 256 ∧ ∀ b ∈ r.payload, b < 256

/-- `:BBAAAATT<data>CC` with `BB` equal to the payload length. -/
def encodeRecord (r : HexRecord) : List Char :=
  ':' :: (hex2 r.payload.length ++ hex4 r.addr ++ hex2 r.recType
    ++ r.payload.flatMap hex2 ++ hex2 r.checksum)

/-- Records joined by single newlines. -/
def encodeHexBlob : List HexRecord → List Char
  | [] => []
  | [r] => encodeRecord r
  | r :: rest => encodeRecord r ++ '\n' :: encodeHexBlob rest

/-- A type-00 data line whose byte-count field announces `bc` bytes but
whose payload was truncated after `payload.length ≤ bc` whole bytes
(no checksum, nothing after the truncation point). -/
def encodeShortLine (bc addr : Nat) (payload : List Nat) : List Char :=
  ':' :: (hex2 bc ++ hex4 addr ++ hex2 0 ++ payload.flatMap hex2)

/-! ## Concrete fixtures for counterexamples and witnesses -/

/-- `":04000000AB"` — a type-00 line announcing 4 data bytes but
carrying only one. -/
def truncLine : List Char :=
  [':', '0', '4', '0', '0', '0', '0', '0', '0', 'A', 'B']

/-- Device that answers the second candidate's first sync probe
(read index 10) and nothing else. -/
def twoTryDevice : Device :=
  ⟨fun _ => true, fun k => if k = 10 then [STK_INSYNC, STK_OK] else []⟩

/-- Device that answers the very first sync probe (read index 1). -/
def promptDevice : Device :=
  ⟨fun _ => true, fun k => if k = 1 then [STK_INSYNC, STK_OK] else []⟩

/-- Device that never answers anything. -/
def silentDevice : Device := ⟨fun _ => true, fun _ => []⟩

def fallbackBoard : ArduinoBoard := ⟨"", "", "", 0⟩
def unoBoard : ArduinoBoard := ARDUINO_BOARDS.getD 0 fallbackBoard
def oldNanoBoard : ArduinoBoard := ARDUINO_BOARDS.getD 2 fallbackBoard
def megaBoard : ArduinoBoard := ARDUINO_BOARDS.getD 3 fallbackBoard

/-- Two type-00 data records used as a witness blob. -/
def sampleRecords : List HexRecord :=
  [⟨0, 0, [0xDE, 0xAD], 0x42⟩, ⟨0, 2, [0xBE], 0x41⟩]

/-- A truncated data line used as a witness: 4 announced bytes, 1 present. -/
def sampleShort : List Nat := [0xAB]

instance (r : HexRecord) : Decidable (WFRecord r) :=
  inferInstanceAs (Decidable (_ ∧ _ ∧ _ ∧ _ ∧ _))

/-! # Helper lemmas -/

theorem jsSubstring_of_le (s : List Char) (a b : Nat) (hab : a ≤ b)
    (hb : b ≤ s.length) : jsSubstring s a b = (s.drop a).take (b - a) := by
  simp only [jsSubstring]
  rw [Nat.min_eq_left (hab.trans hb), Nat.min_eq_left hb,
    Nat.min_eq_left hab, Nat.max_eq_right hab]

theorem jsSubstring_past (s : List Char) (a b : Nat) (ha : s.length ≤ a)
    (hb : s.length ≤ b) : jsSubstring s a b = [] := by
  simp only [jsSubstring]
  rw [Nat.min_eq_right ha, Nat.min_eq_right hb]
  simp

theorem jsCeilDiv_of_mod_ne (L P : Nat) (hP : 0 < P) (hr : L % P ≠ 0) :
    jsCeilDiv L P = L / P + 1 := by
  have h := Nat.div_add_mod L P
  have h2 : L % P < P := Nat.mod_lt _ hP
  unfold jsCeilDiv
  rw [show L + P - 1 = (L % P - 1) + P * (L / P + 1) by
    set x := P * (L / P) with hx
    have : P * (L / P + 1) = x + P := by rw [hx]; ring
    omega]
  rw [Nat.add_mul_div_left _ _ hP, Nat.div_eq_of_lt (by omega)]
  omega

theorem pageSlice_last_length (hexData : List Nat) (P : Nat) (hP : 0 < P)
    (hr : hexData.length % P ≠ 0) :
    (pageSlice hexData P (jsCeilDiv hexData.length P - 1)).length
      = hexData.length % P := by
  have h := Nat.div_add_mod hexData.length P
  have h2 : hexData.length % P < P := Nat.mod_lt _ hP
  simp only [pageSlice, List.length_take, List.length_drop]
  rw [jsCeilDiv_of_mod_ne _ _ hP hr, Nat.add_sub_cancel, Nat.mul_comm]
  set x := P * (hexData.length / P) with hx
  omega

theorem hexChar_facts :
    ∀ d < 16, hexDigitVal (hexChar d) = some d ∧ isJsSpace (hexChar d) = false
      ∧ hexChar d ≠ '\n' ∧ hexChar d ≠ '-' ∧ hexChar d ≠ '+'
      ∧ hexChar d ≠ 'x' ∧ hexChar d ≠ 'X' ∧ hexChar d ≠ ':' := by
  decide

set_option maxRecDepth 100000 in
theorem jsParseIntHex_pair :
    ∀ x < 16, ∀ y < 16,
      jsParseIntHex [hexChar x, hexChar y] = some ((16 * x + y : Nat) : Int) := by
  decide

theorem jsParseIntHex_hex2 (n : Nat) (h : n < 256) :
    jsParseIntHex (hex2 n) = some ((n : Nat) : Int) := by
  have h1 : n / 16 < 16 := by omega
  have h2 : n % 16 < 16 := Nat.mod_lt _ (by norm_num)
  have hp := jsParseIntHex_pair (n / 16) h1 (n % 16) h2
  rw [hex2, hp]
  congr 1
  push_cast
  omega

theorem toUint8_byte : ∀ b < 256, toUint8 (some ((b : Nat) : Int)) = b := by
  intro b h
  show ((b : Int) % 256).toNat = b
  rw [Int.emod_eq_of_lt (by exact_mod_cast Nat.zero_le b) (by exact_mod_cast h)]
  exact Int.toNat_natCast b

theorem flatMap_hex2_length (l : List Nat) : (l.flatMap hex2).length = 2 * l.length := by
  induction l with
  | nil => simp
  | cons b t ih => simp [List.flatMap_cons, hex2, ih]; omega

theorem flatMap_congr_of_mem {α β : Type} {l : List α} {f g : α → List β}
    (h : ∀ a ∈ l, f a = g a) : l.flatMap f = l.flatMap g := by
  induction l with
  | nil => rfl
  | cons a t ih =>
    simp only [List.flatMap_cons]
    rw [h a (by simp), ih (fun a ha => h a (List.mem_cons_of_mem _ ha))]

theorem newline_not_mem_hex2 (b : Nat) (hb : b < 256) : '\n' ∉ hex2 b := by
  have h1 := (hexChar_facts (b / 16) (by omega)).2.2.1
  have h2 := (hexChar_facts (b % 16) (Nat.mod_lt _ (by norm_num))).2.2.1
  simp only [hex2, List.mem_cons, List.not_mem_nil]
  intro hm
  rcases hm with hm | hm | hm
  · exact h1 hm.symm
  · exact h2 hm.symm
  · exact hm

theorem newline_not_mem_hex4 (a : Nat) (ha : a < 65536) : '\n' ∉ hex4 a := by
  simp only [hex4, List.mem_append]
  intro hm
  rcases hm with hm | hm
  · exact newline_not_mem_hex2 _ (by omega) hm
  · exact newline_not_mem_hex2 _ (Nat.mod_lt _ (by norm_num)) hm

theorem encodeRecord_no_newline (r : HexRecord) (h : WFRecord r) :
    '\n' ∉ encodeRecord r := by
  obtain ⟨ht, ha, hc, hl, hb⟩ := h
  have h2 : '\n' ∉ r.payload.flatMap hex2 := by
    intro hm
    obtain ⟨b, hbm, hbc⟩ := List.mem_flatMap.mp hm
    exact newline_not_mem_hex2 b (hb b hbm) hbc
  intro hmem
  rcases List.mem_cons.mp hmem with h1 | h1
  · exact absurd h1 (by decide)
  rcases List.mem_append.mp h1 with h1 | h1
  · rcases List.mem_append.mp h1 with h1 | h1
    · rcases List.mem_append.mp h1 with h1 | h1
      · rcases List.mem_append.mp h1 with h1 | h1
        · exact newline_not_mem_hex2 _ hl h1
        · exact newline_not_mem_hex4 _ ha h1
      · exact newline_not_mem_hex2 _ ht h1
    · exact h2 h1
  · exact newline_not_mem_hex2 _ hc h1

theorem encodeShortLine_no_newline (bc addr : Nat) (payload : List Nat)
    (hbc : bc < 256) (ha : addr < 65536) (hb : ∀ b ∈ payload, b < 256) :
    '\n' ∉ encodeShortLine bc addr payload := by
  have h2 : '\n' ∉ payload.flatMap hex2 := by
    intro hm
    obtain ⟨b, hbm, hbc2⟩ := List.mem_flatMap.mp hm
    exact newline_not_mem_hex2 b (hb b hbm) hbc2
  intro hmem
  rcases List.mem_cons.mp hmem with h1 | h1
  · exact absurd h1 (by decide)
  rcases List.mem_append.mp h1 with h1 | h1
  · rcases List.mem_append.mp h1 with h1 | h1
    · rcases List.mem_append.mp h1 with h1 | h1
      · exact newline_not_mem_hex2 _ hbc h1
      · exact newline_not_mem_hex4 _ ha h1
    · exact newline_not_mem_hex2 _ (by norm_num) h1
  · exact h2 h1

theorem splitLines_no_newline (l : List Char) (h : '\n' ∉ l) :
    splitLines l = [l] := by
  induction l with
  | nil => rfl
  | cons c t ih =>
    have hc : c ≠ '\n' := fun hcc => h (by rw [← hcc]; exact List.mem_cons_self c t)
    have ht' : '\n' ∉ t := fun hm => h (List.mem_cons_of_mem _ hm)
    simp only [splitLines, if_neg hc]
    rw [ih ht']

theorem splitLines_newline_append (l t : List Char) (h : '\n' ∉ l) :
    splitLines (l ++ '\n' :: t) = l :: splitLines t := by
  induction l with
  | nil => simp [splitLines]
  | cons c l' ih =>
    have hc : c ≠ '\n' := fun hcc => h (by rw [← hcc]; exact List.mem_cons_self c l')
    have hl' : '\n' ∉ l' := fun hm => h (List.mem_cons_of_mem _ hm)
    simp only [List.cons_append, splitLines, if_neg hc, List.append_eq]
    rw [ih hl']

theorem foldl_append_hexLineBytes (lines : List (List Char)) (init : List Nat) :
    lines.foldl (fun data line => data ++ hexLineBytes line) init
      = init ++ lines.flatMap hexLineBytes := by
  induction lines generalizing init with
  | nil => simp
  | cons l t ih => simp [List.foldl_cons, ih, List.flatMap_cons]

theorem extract_payload_pair (pre : List Char) (payload : List Nat)
    (post : List Char) (hpre : pre.length = 9) (i : Nat)
    (hi : i < payload.length) :
    jsSubstring (pre ++ (payload.flatMap hex2 ++ post)) (9 + i * 2) (11 + i * 2)
      = hex2 (payload.get ⟨i, hi⟩) := by
  have hlen : (pre ++ (payload.flatMap hex2 ++ post)).length
      = 9 + 2 * payload.length + post.length := by
    rw [List.length_append, List.length_append, hpre, flatMap_hex2_length]
    omega
  rw [jsSubstring_of_le _ _ _ (by omega) (by omega)]
  have hsplit : payload.flatMap hex2
      = (payload.take i).flatMap hex2 ++ (payload.drop i).flatMap hex2 := by
    rw [← List.flatMap_append, List.take_append_drop]
  have hpre2 : (pre ++ (payload.take i).flatMap hex2).length = 9 + i * 2 := by
    rw [List.length_append, hpre, flatMap_hex2_length, List.length_take]
    omega
  have hdrop : (pre ++ (payload.flatMap hex2 ++ post)).drop (9 + i * 2)
      = (payload.drop i).flatMap hex2 ++ post := by
    rw [hsplit, ← List.append_assoc, ← List.append_assoc, List.append_assoc _ _ post,
      List.drop_left' hpre2]
  rw [hdrop]
  have hcons : payload.drop i = payload.get ⟨i, hi⟩ :: payload.drop (i + 1) := by
    rw [List.drop_eq_getElem_cons hi]
    rfl
  rw [hcons, List.flatMap_cons]
  rw [show 11 + i * 2 - (9 + i * 2) = 2 from by omega]
  rw [List.append_assoc]
  exact List.take_left' rfl

theorem map_range_eq {α : Type} (f : Nat → α) (l : List α)
    (h : ∀ i (hi : i < l.length), f i = l.get ⟨i, hi⟩) :
    (List.range l.length).map f = l := by
  apply List.ext_getElem (by simp)
  intro i h1 h2
  simp only [List.getElem_map, List.getElem_range]
  rw [h i h2]
  simp [List.get_eq_getElem]

theorem map_range_eq_len {α : Type} (n : Nat) (f : Nat → α) (l : List α)
    (hn : l.length = n)
    (h : ∀ i, i < n → ∀ hi2 : i < l.length, f i = l.get ⟨i, hi2⟩) :
    (List.range n).map f = l := by
  subst hn
  apply map_range_eq
  intro i hi
  exact h i hi hi

theorem hexLineBytes_encode (r : HexRecord) (h : WFRecord r) :
    hexLineBytes (encodeRecord r) = if r.recType = 0 then r.payload else [] := by
  obtain ⟨ht, ha, hc, hl, hb⟩ := h
  have hlen : (encodeRecord r).length = 11 + 2 * r.payload.length := by
    show (':' :: (hex2 r.payload.length ++ hex4 r.addr ++ hex2 r.recType
      ++ r.payload.flatMap hex2 ++ hex2 r.checksum)).length = _
    simp only [List.length_cons, List.length_append, flatMap_hex2_length, hex2, hex4,
      List.length_nil]
    omega
  have hbc : jsParseIntHex (jsSubstring (encodeRecord r) 1 3)
      = some ((r.payload.length : Nat) : Int) := by
    have hsub : jsSubstring (encodeRecord r) 1 3 = hex2 r.payload.length := by
      rw [jsSubstring_of_le _ _ _ (by omega) (by omega)]
      rfl
    rw [hsub]
    exact jsParseIntHex_hex2 _ hl
  have hty : jsParseIntHex (jsSubstring (encodeRecord r) 7 9)
      = some ((r.recType : Nat) : Int) := by
    have hsub : jsSubstring (encodeRecord r) 7 9 = hex2 r.recType := by
      rw [jsSubstring_of_le _ _ _ (by omega) (by omega)]
      rfl
    rw [hsub]
    exact jsParseIntHex_hex2 _ ht
  unfold hexLineBytes
  rw [hbc, hty]
  by_cases h0 : r.recType = 0
  · rw [if_pos (by simp [h0]), if_pos h0]
    have hcount : jsLoopCount (some ((r.payload.length : Nat) : Int))
        = r.payload.length := by
      simp [jsLoopCount]
    rw [hcount]
    apply map_range_eq
    intro i hi
    have hpre : ((':' : Char)
        :: (hex2 r.payload.length ++ hex4 r.addr ++ hex2 r.recType)).length = 9 := by
      simp [hex2, hex4]
    have hsplit : encodeRecord r
        = (':' :: (hex2 r.payload.length ++ hex4 r.addr ++ hex2 r.recType))
          ++ (r.payload.flatMap hex2 ++ hex2 r.checksum) := by
      simp [encodeRecord]
    rw [hsplit, extract_payload_pair _ _ _ hpre i hi]
    have hbi := hb _ (List.get_mem r.payload i hi)
    rw [jsParseIntHex_hex2 _ hbi, toUint8_byte _ hbi]
  · rw [if_neg (by simp [h0]), if_neg h0]

theorem parseHexFile_single (line : List Char) (hnl : '\n' ∉ line)
    (hhd : line.head? = some ':') :
    parseHexFile line = hexLineBytes line := by
  unfold parseHexFile
  rw [splitLines_no_newline _ hnl]
  rw [List.filter_cons_of_pos (by simp [hhd]), List.filter_nil]
  simp [List.foldl_cons]

theorem parseHexFile_blob (rs : List HexRecord) (h : ∀ r ∈ rs, WFRecord r) :
    parseHexFile (encodeHexBlob rs)
      = rs.flatMap (fun r => hexLineBytes (encodeRecord r)) := by
  induction rs with
  | nil => rfl
  | cons r rest ih =>
    cases rest with
    | nil =>
      rw [show encodeHexBlob [r] = encodeRecord r from rfl]
      rw [parseHexFile_single _ (encodeRecord_no_newline r (h r (by simp))) rfl]
      simp
    | cons r2 rest2 =>
      have hrest := ih (fun x hx => h x (List.mem_cons_of_mem _ hx))
      unfold parseHexFile at hrest ⊢
      rw [show encodeHexBlob (r :: r2 :: rest2)
          = encodeRecord r ++ '\n' :: encodeHexBlob (r2 :: rest2) from rfl]
      rw [splitLines_newline_append _ _ (encodeRecord_no_newline r (h r (by simp)))]
      rw [List.filter_cons_of_pos
        (by simp [show (encodeRecord r).head? = some ':' from rfl])]
      rw [List.foldl_cons, foldl_append_hexLineBytes]
      rw [foldl_append_hexLineBytes] at hrest
      simp only [List.nil_append] at hrest ⊢
      rw [hrest]
      simp [List.flatMap_cons]

theorem syncAttempts_of_success (dev : Device) (k fuel : Nat)
    (h : syncSuccess (dev.resp k) = true) :
    syncAttempts dev k (fuel + 1) = (true, k + 1, [[STK_GET_SYNC, CRC_EOP]]) := by
  simp [syncAttempts, h]

theorem syncAttempts_silent (fuel : Nat) : ∀ k,
    syncAttempts silentDevice k fuel
      = (false, k + fuel, List.replicate fuel [STK_GET_SYNC, CRC_EOP]) := by
  induction fuel with
  | zero => intro k; simp [syncAttempts]
  | succ n ih =>
    intro k
    rw [syncAttempts, show syncSuccess (silentDevice.resp k) = false from rfl]
    simp [ih (k + 1), List.replicate_succ]
    omega

theorem attemptSync_silent (a k baud : Nat) (m : ResetMethod) :
    attemptSync silentDevice a k baud m
      = { success := false, events := [connectingEv baud, syncingEv]
          tx := List.replicate 8 [STK_GET_SYNC, CRC_EOP]
          reads := k + 9, opens := a + 1 } := by
  rw [attemptSync, if_pos (show silentDevice.openOk a = true from rfl),
    syncAttempts_silent 8 (k + 1)]

theorem trySync_silent (cands : List (Nat × ResetMethod)) : ∀ a k,
    trySync silentDevice a k cands
      = { connected := false
          events := cands.flatMap (fun c => [connectingEv c.1, syncingEv])
          tx := cands.flatMap (fun _ => List.replicate 8 [STK_GET_SYNC, CRC_EOP])
          reads := k + 9 * cands.length
          opens := a + cands.length } := by
  induction cands with
  | nil => intro a k; simp [trySync]
  | cons c rest ih =>
    intro a k
    obtain ⟨baud, m⟩ := c
    rw [trySync, attemptSync_silent]
    simp [ih (a + 1) (k + 9), List.flatMap_cons]
    omega

theorem boardBaudRates_cons (board : ArduinoBoard) :
    ∃ b rest, boardBaudRates board = b :: rest := by
  by_cases h1 : jsIncludes board.fqbn.data "atmega328old".data = true
  · exact ⟨57600, [], by simp [boardBaudRates, h1]⟩
  by_cases h2 : jsIncludes board.name.data "Nano".data = true
  · exact ⟨115200, [57600], by simp [boardBaudRates, h1, h2]⟩
  · exact ⟨board.baudRate, [], by simp [boardBaudRates, h1, h2]⟩

theorem candidatePairs_cons (board : ArduinoBoard) :
    ∃ b rest, candidatePairs board = (b, ResetMethod.combined) :: rest := by
  obtain ⟨b, rest, hb⟩ := boardBaudRates_cons board
  exact ⟨b, (b, .dtr) :: (b, .rts)
      :: rest.flatMap (fun baud => resetMethods.map (fun m => (baud, m))),
    by simp [candidatePairs, hb, resetMethods]⟩

theorem upload_first_sync (dev : Device) (hexData : List Nat)
    (board : ArduinoBoard) (h0 : dev.openOk 0 = true)
    (h1 : syncSuccess (dev.resp 1) = true) :
    ∃ b0,
      (uploadToArduino dev hexData board).error = none
      ∧ (uploadToArduino dev hexData board).events
          = [connectingEv b0, syncingEv, uploadingEv]
            ++ pageEvents (jsCeilDiv hexData.length 128) ++ [verifyingEv, doneEv]
      ∧ (uploadToArduino dev hexData board).tx
          = [[STK_GET_SYNC, CRC_EOP], [STK_ENTER_PROGMODE, CRC_EOP]]
            ++ (List.range (jsCeilDiv hexData.length 128)).flatMap
                (fun page => [addrCmd 128 page, progPacket hexData 128 page])
            ++ [[STK_LEAVE_PROGMODE, CRC_EOP]] := by
  obtain ⟨b0, rest, hc⟩ := candidatePairs_cons board
  have h8 : syncAttempts dev (0 + 1) 8 = (true, 2, [[STK_GET_SYNC, CRC_EOP]]) := by
    simpa using syncAttempts_of_success dev 1 7 h1
  have hat : attemptSync dev 0 0 b0 .combined
      = { success := true, events := [connectingEv b0, syncingEv]
          tx := [[STK_GET_SYNC, CRC_EOP]], reads := 2, opens := 1 } := by
    rw [attemptSync, if_pos h0, h8]
  have htry : trySync dev 0 0 (candidatePairs board)
      = { connected := true, events := [connectingEv b0, syncingEv]
          tx := [[STK_GET_SYNC, CRC_EOP]], reads := 2, opens := 1 } := by
    rw [hc, trySync, hat]
    simp
  refine ⟨b0, ?_, ?_, ?_⟩ <;> simp [uploadToArduino, htry]

theorem pageEvent_le (n p : Nat) (hp : p + 1 < n) :
    eventLe (pageEvent n p) (pageEvent n (p + 1)) := by
  constructor
  · simp [pageEvent, stageIdx]
  · show (20 : ℚ) + ((p : ℚ) + 1) / (n : ℚ) * 70
      ≤ 20 + (((p + 1 : Nat) : ℚ) + 1) / (n : ℚ) * 70
    have hn : (0 : ℚ) < (n : ℚ) := by
      have : 0 < n := by omega
      exact_mod_cast this
    have h2 : (0 : ℚ) ≤ ((n : ℚ))⁻¹ := by positivity
    have key : ((p : ℚ) + 1) / (n : ℚ) ≤ (((p + 1 : Nat) : ℚ) + 1) / (n : ℚ) := by
      rw [div_eq_mul_inv, div_eq_mul_inv]
      apply mul_le_mul_of_nonneg_right ?_ h2
      push_cast
      linarith
    linarith

theorem pageEvent_last_le (m : Nat) : eventLe (pageEvent (m + 1) m) verifyingEv := by
  constructor
  · simp [pageEvent, verifyingEv, stageIdx]
  · show (20 : ℚ) + ((m : ℚ) + 1) / ((m + 1 : Nat) : ℚ) * 70 ≤ 95
    have hcast : ((m + 1 : Nat) : ℚ) = (m : ℚ) + 1 := by push_cast; ring
    rw [hcast, div_self (by positivity)]
    norm_num

theorem uploading_le_pageEvent0 (m : Nat) :
    eventLe uploadingEv (pageEvent (m + 1) 0) := by
  constructor
  · simp [uploadingEv, pageEvent, stageIdx]
  · show (20 : ℚ) ≤ 20 + ((0 : ℚ) + 1) / ((m + 1 : Nat) : ℚ) * 70
    have h : (0 : ℚ) ≤ ((0 : ℚ) + 1) / ((m + 1 : Nat) : ℚ) * 70 := by positivity
    linarith

theorem monotone_success_events (b0 : Nat) (n : Nat) :
    monotoneEvents ([connectingEv b0, syncingEv, uploadingEv]
      ++ pageEvents n ++ [verifyingEv, doneEv]) := by
  unfold monotoneEvents
  simp only [List.cons_append, List.nil_append]
  refine List.chain'_cons.mpr ⟨⟨by simp [connectingEv, syncingEv, stageIdx],
    by norm_num [connectingEv, syncingEv]⟩, ?_⟩
  refine List.chain'_cons.mpr ⟨⟨by simp [syncingEv, uploadingEv, stageIdx],
    by norm_num [syncingEv, uploadingEv]⟩, ?_⟩
  cases n with
  | zero =>
    simp only [pageEvents, List.range_zero, List.map_nil, List.nil_append]
    refine List.chain'_cons.mpr ⟨⟨by simp [uploadingEv, verifyingEv, stageIdx],
      by norm_num [uploadingEv, verifyingEv]⟩, ?_⟩
    refine List.chain'_cons.mpr ⟨⟨by simp [verifyingEv, doneEv, stageIdx],
      by norm_num [verifyingEv, doneEv]⟩, ?_⟩
    exact List.chain'_singleton _
  | succ m =>
    have hhead : (pageEvents (m + 1) ++ [verifyingEv, doneEv]).head?
        = some (pageEvent (m + 1) 0) := by
      rw [List.head?_append]
      simp [pageEvents, List.range_succ_eq_map]
    refine List.chain'_cons'.mpr ⟨?_, ?_⟩
    · intro y hy
      rw [hhead] at hy
      simp only [Option.mem_def, Option.some_inj] at hy
      rw [← hy]
      exact uploading_le_pageEvent0 m
    · rw [List.chain'_append]
      refine ⟨?_, ?_, ?_⟩
      · unfold pageEvents
        rw [List.chain'_map]
        rw [show m + 1 = Nat.succ m from rfl, List.chain'_range_succ]
        intro i hi
        exact pageEvent_le (m + 1) i (by omega)
      · refine List.chain'_cons.mpr ⟨⟨by simp [verifyingEv, doneEv, stageIdx],
          by norm_num [verifyingEv, doneEv]⟩, List.chain'_singleton _⟩
      · intro x hx y hy
        have hlast : (pageEvents (m + 1)).getLast? = some (pageEvent (m + 1) m) := by
          unfold pageEvents
          rw [List.range_succ, List.map_append]
          simp
        rw [hlast] at hx
        simp only [Option.mem_def, Option.some_inj] at hx
        simp only [List.head?_cons, Option.mem_def, Option.some_inj] at hy
        rw [← hx, ← hy]
        exact pageEvent_last_le m

/-! # Claim theorems -/

/-- C5 counterexample: a response carrying the OK byte strictly before
the in-sync byte — hence with no in-sync-then-OK ordered occurrence —
is still declared a successful synchronization by the code's
containment check. -/
theorem C5_sync_order_counterexample :
    syncSuccess [STK_OK, STK_INSYNC] = true
      ∧ containsInOrder STK_INSYNC STK_OK [STK_OK, STK_INSYNC] = false := by
  decide

/-- C5 (amended): the Negotiator declares synchronization success if
and only if the response contains the in-sync byte (0x14) and the OK
byte (0x10) anywhere, in either order. -/
theorem C5_sync_containment (response : List Nat) :
    syncSuccess response = true ↔ STK_INSYNC ∈ response ∧ STK_OK ∈ response := by
  simp [syncSuccess, List.elem_iff]

/-- C4 counterexample: the registry's "Arduino Nano (Old Bootloader)"
board has a name containing "Nano", yet its candidate baud list is
`[57600]`, not `[115200, 57600]`. -/
theorem C4_baud_list_counterexample :
    jsIncludes oldNanoBoard.name.data "Nano".data = true
      ∧ boardBaudRates oldNanoBoard = [57600]
      ∧ ([57600] : List Nat) ≠ [115200, 57600] := by
  decide

/-- C4 (amended): for every board in the registry the candidate baud
list is `[57600]` when the fqbn contains "atmega328old" (overriding the
Nano heuristic), else `[115200, 57600]` when the name contains "Nano",
else `[defaultBaudRate]`; on the registry this evaluates to the four
lists below. -/
theorem C4_baud_list_registry :
    ARDUINO_BOARDS.map boardBaudRates
      = [[115200], [115200, 57600], [57600], [115200]] := by
  decide

set_option maxRecDepth 8000 in
/-- C3 counterexample: for the high-memory "Arduino Mega" board the
page programmer still sends 128-byte pages — the PROG_PAGE packet of a
1-byte upload is 4 + 128 + 1 bytes long, not 4 + 256 + 1. -/
theorem C3_page_size_counterexample :
    jsIncludes megaBoard.name.data "Mega".data = true
      ∧ (uploadToArduino promptDevice [0xAB] megaBoard).tx.getD 3 []
          = progPacket [0xAB] 128 0
      ∧ ((uploadToArduino promptDevice [0xAB] megaBoard).tx.getD 3 []).length
          = 4 + 128 + 1
      ∧ (4 + 128 + 1 : Nat) ≠ 4 + 256 + 1 := by
  decide

/-- C1: for a binary image of length `L` and page size `P > 0`, the
page loop issues exactly `ceil(L/P)` LOAD_ADDRESS/PROG_PAGE pairs
(`jsCeilDiv` is the ceiling: the unique `n` with `L ≤ n*P < L + P`);
the pair at index `p` carries word address `(p*P) >> 1 = p*P/2`, low
byte first; and when `L mod P ≠ 0` the final page's trailing
`P - L mod P` bytes are all `0xFF`. -/
theorem C1_page_programmer (hexData : List Nat) (P : Nat) (hP : 0 < P) :
    (pageCommands hexData P).length = jsCeilDiv hexData.length P
    ∧ hexData.length ≤ jsCeilDiv hexData.length P * P
    ∧ jsCeilDiv hexData.length P * P < hexData.length + P
    ∧ (∀ p, p < jsCeilDiv hexData.length P →
        (pageCommands hexData P).getD p ([], [])
            = (addrCmd P p, progPacket hexData P p)
        ∧ addrCmd P p
            = [STK_LOAD_ADDRESS, p * P / 2 % 256, p * P / 2 / 256 % 256, CRC_EOP])
    ∧ (hexData.length % P ≠ 0 →
        (paddedPage hexData P (jsCeilDiv hexData.length P - 1)).drop
            (hexData.length % P)
          = List.replicate (P - hexData.length % P) 0xFF) := by
  refine ⟨by simp [pageCommands], ?_, ?_, ?_, ?_⟩
  · have h := le_smul_ceilDiv (b := hexData.length) hP
    simpa [Nat.ceilDiv_eq_add_pred_div, jsCeilDiv, smul_eq_mul, Nat.mul_comm] using h
  · have h := Nat.div_mul_le_self (hexData.length + P - 1) P
    unfold jsCeilDiv
    omega
  · intro p hp
    constructor
    · rw [List.getD_eq_getElem _ _ (by simpa [pageCommands] using hp)]
      simp [pageCommands]
    · simp [addrCmd, Nat.shiftRight_eq_div_pow]
  · intro hr
    have hlen := pageSlice_last_length hexData P hP hr
    simp only [paddedPage]
    rw [hlen, List.drop_left' hlen]

/-- C2: for a HEX blob made of well-formed records joined by newlines,
`parseHexFile` returns exactly the concatenation of the decoded
payloads of the type-00 records, in record order (other record types
contribute nothing); when every record is type-00 the image length is
exactly the total payload byte count `B`. -/
theorem C2_hex_loader (rs : List HexRecord) (h : ∀ r ∈ rs, WFRecord r) :
    parseHexFile (encodeHexBlob rs)
        = rs.flatMap (fun r => if r.recType = 0 then r.payload else [])
    ∧ ((∀ r ∈ rs, r.recType = 0) →
        (parseHexFile (encodeHexBlob rs)).length
          = (rs.map (fun r => r.payload.length)).sum) := by
  have hmain : parseHexFile (encodeHexBlob rs)
      = rs.flatMap (fun r => if r.recType = 0 then r.payload else []) := by
    rw [parseHexFile_blob rs h]
    exact flatMap_congr_of_mem (fun r hr => hexLineBytes_encode r (h r hr))
  refine ⟨hmain, fun hall => ?_⟩
  rw [hmain, List.length_flatMap]
  congr 1
  apply List.map_congr_left
  intro r hr
  simp [hall r hr]

/-- Witness for C2 at a two-record blob `:02000000DEAD42` / `:01000200BE41`. -/
theorem C2_hex_loader_witness :
    (∀ r ∈ sampleRecords, WFRecord r)
    ∧ (parseHexFile (encodeHexBlob sampleRecords)
        = sampleRecords.flatMap (fun r => if r.recType = 0 then r.payload else [])
      ∧ ((∀ r ∈ sampleRecords, r.recType = 0) →
          (parseHexFile (encodeHexBlob sampleRecords)).length
            = (sampleRecords.map (fun r => r.payload.length)).sum)) :=
  ⟨by decide, C2_hex_loader sampleRecords (by decide)⟩

/-- C8 counterexample: the truncated type-00 line `":04000000AB"`
(byte count 4, one payload byte present) contributes exactly 4 bytes to
the image — `[0xAB, 0, 0, 0]` — not fewer than byte-count bytes: the
missing reads parse to NaN, which the `Uint8Array` constructor coerces
to 0, so the image is not shorter than announced. -/
theorem C8_truncated_line_counterexample :
    parseHexFile truncLine = [0xAB, 0, 0, 0]
      ∧ ¬ (parseHexFile truncLine).length < 4 := by
  decide

/-- C8 (amended): `parseHexFile` never raises (it is a total function
of its input in this model, every JS primitive it uses being total):
lines whose record-type field does not parse to 0 contribute zero
bytes, and a type-00 line announcing `bc` bytes whose payload was
truncated to `payload.length ≤ bc` whole bytes contributes exactly `bc`
entries: the decoded payload followed by `bc - payload.length` zeros
(each missing read parses to NaN and is coerced to 0). -/
theorem C8_truncated_zero_fill (bc addr : Nat) (payload : List Nat)
    (hbc : bc < 256) (ha : addr < 65536) (hlen : payload.length ≤ bc)
    (hb : ∀ b ∈ payload, b < 256) :
    parseHexFile (encodeShortLine bc addr payload)
      = payload ++ List.replicate (bc - payload.length) 0 := by
  have hnl := encodeShortLine_no_newline bc addr payload hbc ha hb
  rw [parseHexFile_single _ hnl rfl]
  have hlinelen : (encodeShortLine bc addr payload).length
      = 9 + 2 * payload.length := by
    show (':' :: (hex2 bc ++ hex4 addr ++ hex2 0 ++ payload.flatMap hex2)).length = _
    simp only [List.length_cons, List.length_append, flatMap_hex2_length, hex2, hex4,
      List.length_nil]
    omega
  have hbcf : jsParseIntHex (jsSubstring (encodeShortLine bc addr payload) 1 3)
      = some ((bc : Nat) : Int) := by
    have hsub : jsSubstring (encodeShortLine bc addr payload) 1 3 = hex2 bc := by
      rw [jsSubstring_of_le _ _ _ (by omega) (by omega)]
      rfl
    rw [hsub]
    exact jsParseIntHex_hex2 _ hbc
  have htyf : jsParseIntHex (jsSubstring (encodeShortLine bc addr payload) 7 9)
      = some ((0 : Nat) : Int) := by
    have hsub : jsSubstring (encodeShortLine bc addr payload) 7 9 = hex2 0 := by
      rw [jsSubstring_of_le _ _ _ (by omega) (by omega)]
      rfl
    rw [hsub]
    exact jsParseIntHex_hex2 _ (by norm_num)
  unfold hexLineBytes
  rw [hbcf, htyf]
  rw [if_pos (by norm_num)]
  have hcount : jsLoopCount (some ((bc : Nat) : Int)) = bc := by
    simp [jsLoopCount]
  rw [hcount]
  have htarget : (payload ++ List.replicate (bc - payload.length) 0).length = bc := by
    simp [List.length_append, List.length_replicate]
    omega
  apply map_range_eq_len bc _ _ htarget
  intro i hi2 hi
  by_cases hip : i < payload.length
  · have hpre : ((':' : Char) :: (hex2 bc ++ hex4 addr ++ hex2 0)).length = 9 := by
      simp [hex2, hex4]
    have hsplit : encodeShortLine bc addr payload
        = (':' :: (hex2 bc ++ hex4 addr ++ hex2 0))
          ++ (payload.flatMap hex2 ++ []) := by
      simp [encodeShortLine]
    rw [hsplit, extract_payload_pair _ _ _ hpre i hip]
    have hbi := hb _ (List.get_mem payload i hip)
    rw [jsParseIntHex_hex2 _ hbi, toUint8_byte _ hbi]
    rw [List.get_eq_getElem, List.get_eq_getElem]
    rw [List.getElem_append_left hip]
  · have hout : jsSubstring (encodeShortLine bc addr payload)
        (9 + i * 2) (11 + i * 2) = [] := by
      apply jsSubstring_past <;> omega
    rw [hout]
    rw [show jsParseIntHex [] = none from rfl]
    rw [show toUint8 none = 0 from rfl]
    rw [List.get_eq_getElem,
      List.getElem_append_right (by exact Nat.le_of_not_lt hip)]
    simp

/-- Witness for C8 at byte count 4, one present payload byte `0xAB`. -/
theorem C8_truncated_zero_fill_witness :
    (4 < 256 ∧ 0 < 65536 ∧ sampleShort.length ≤ 4 ∧ ∀ b ∈ sampleShort, b < 256)
    ∧ parseHexFile (encodeShortLine 4 0 sampleShort)
        = sampleShort ++ List.replicate (4 - sampleShort.length) 0 :=
  ⟨by decide, C8_truncated_zero_fill 4 0 sampleShort (by decide) (by decide)
    (by decide) (by decide)⟩

/-- Witness for C1 at the 3-byte image `[1, 2, 3]` with page size 2. -/
theorem C1_page_programmer_witness :
    0 < 2
    ∧ ((pageCommands [1, 2, 3] 2).length = jsCeilDiv ([1, 2, 3] : List Nat).length 2
      ∧ ([1, 2, 3] : List Nat).length ≤ jsCeilDiv ([1, 2, 3] : List Nat).length 2 * 2
      ∧ jsCeilDiv ([1, 2, 3] : List Nat).length 2 * 2 < ([1, 2, 3] : List Nat).length + 2
      ∧ (∀ p, p < jsCeilDiv ([1, 2, 3] : List Nat).length 2 →
          (pageCommands [1, 2, 3] 2).getD p ([], [])
              = (addrCmd 2 p, progPacket [1, 2, 3] 2 p)
          ∧ addrCmd 2 p
              = [STK_LOAD_ADDRESS, p * 2 / 2 % 256, p * 2 / 2 / 256 % 256, CRC_EOP])
      ∧ (([1, 2, 3] : List Nat).length % 2 ≠ 0 →
          (paddedPage [1, 2, 3] 2 (jsCeilDiv ([1, 2, 3] : List Nat).length 2 - 1)).drop
              (([1, 2, 3] : List Nat).length % 2)
            = List.replicate (2 - ([1, 2, 3] : List Nat).length % 2) 0xFF)) :=
  ⟨by decide, C1_page_programmer [1, 2, 3] 2 (by decide)⟩

/-- C3 (amended): the page size used by the Page Programmer is the
constant 128 for every board — the bytes written after a first-probe
synchronization are the 128-byte page commands regardless of the board
descriptor, including the high-memory Mega. -/
theorem C3_page_size_always_128 (dev : Device) (hexData : List Nat)
    (board : ArduinoBoard) (h0 : dev.openOk 0 = true)
    (h1 : syncSuccess (dev.resp 1) = true) :
    (uploadToArduino dev hexData board).tx
      = [[STK_GET_SYNC, CRC_EOP], [STK_ENTER_PROGMODE, CRC_EOP]]
        ++ (List.range (jsCeilDiv hexData.length 128)).flatMap
            (fun page => [addrCmd 128 page, progPacket hexData 128 page])
        ++ [[STK_LEAVE_PROGMODE, CRC_EOP]] := by
  obtain ⟨b0, _, _, htx⟩ := upload_first_sync dev hexData board h0 h1
  exact htx

/-- Witness for C3 (amended) on the Mega board with a 1-byte image. -/
theorem C3_page_size_always_128_witness :
    (promptDevice.openOk 0 = true ∧ syncSuccess (promptDevice.resp 1) = true)
    ∧ (uploadToArduino promptDevice [0xAB] megaBoard).tx
        = [[STK_GET_SYNC, CRC_EOP], [STK_ENTER_PROGMODE, CRC_EOP]]
          ++ (List.range (jsCeilDiv ([0xAB] : List Nat).length 128)).flatMap
              (fun page => [addrCmd 128 page, progPacket [0xAB] 128 page])
          ++ [[STK_LEAVE_PROGMODE, CRC_EOP]] :=
  ⟨⟨rfl, by decide⟩,
    C3_page_size_always_128 promptDevice [0xAB] megaBoard rfl (by decide)⟩

set_option maxRecDepth 100000 in
/-- C7: against a device that never answers any probe, the upload
terminates after exactly 9 bounded-deadline reads per (baud, reset)
candidate (1 drain + 8 sync attempts, each with a deadline of at most
500 ms in the source) and fails with the manual-reset guidance message. -/
theorem C7_silent_device (hexData : List Nat) (board : ArduinoBoard) :
    (uploadToArduino silentDevice hexData board).error = some manualResetMsg
    ∧ strIncludes manualResetMsg "RESET MANUAL" = true
    ∧ (uploadToArduino silentDevice hexData board).reads
        = 9 * (candidatePairs board).length := by
  have h := trySync_silent (candidatePairs board) 0 0
  refine ⟨?_, by decide, ?_⟩ <;> simp [uploadToArduino, h]

set_option maxRecDepth 8000 in
/-- C9 counterexample: a successful run in which the first candidate
fails after reaching the syncing stage and the second candidate
succeeds emits connecting(5%) again after syncing(10%) — the stage
moves backward and the percent decreases, so the event stream of this
successful run is not monotone. -/
theorem C9_progress_counterexample :
    (uploadToArduino twoTryDevice [0xAB] unoBoard).error = none
    ∧ ¬ monotoneEvents (uploadToArduino twoTryDevice [0xAB] unoBoard).events := by
  decide

/-- C9 (amended): in a successful run whose first (baud, reset-pattern)
candidate achieves synchronization, the emitted event stream is
monotone: stages never move backward and percent never decreases.
(When an earlier candidate fails after its syncing event, the next
candidate's connecting event moves stage and percent backward.) -/
theorem C9_progress_monotone_first_candidate (dev : Device)
    (hexData : List Nat) (board : ArduinoBoard) (h0 : dev.openOk 0 = true)
    (h1 : syncSuccess (dev.resp 1) = true) :
    monotoneEvents (uploadToArduino dev hexData board).events := by
  obtain ⟨b0, _, hev, _⟩ := upload_first_sync dev hexData board h0 h1
  rw [hev]
  exact monotone_success_events b0 _

/-- Witness for C9 (amended): immediate sync on the Uno board. -/
theorem C9_progress_monotone_witness :
    (promptDevice.openOk 0 = true ∧ syncSuccess (promptDevice.resp 1) = true)
    ∧ monotoneEvents (uploadToArduino promptDevice [0xAB] unoBoard).events :=
  ⟨⟨rfl, by decide⟩,
    C9_progress_monotone_first_candidate promptDevice [0xAB] unoBoard rfl (by decide)⟩

/-- C10: uploading an empty image after a successful synchronization
issues zero LOAD_ADDRESS and zero PROG_PAGE commands, still writes
`LEAVE_PROGMODE CRC_EOP` as the final transmission, and ends the event
stream with stage `done` at percent 100. -/
theorem C10_empty_image_upload (dev : Device) (board : ArduinoBoard)
    (h0 : dev.openOk 0 = true) (h1 : syncSuccess (dev.resp 1) = true) :
    (uploadToArduino dev [] board).error = none
    ∧ (uploadToArduino dev [] board).tx.filter
        (fun w => w.headD 0 == STK_LOAD_ADDRESS || w.headD 0 == STK_PROG_PAGE) = []
    ∧ (uploadToArduino dev [] board).tx.getLast?
        = some [STK_LEAVE_PROGMODE, CRC_EOP]
    ∧ (uploadToArduino dev [] board).events.getLast?.map
        (fun e => (e.stage, e.progress)) = some (Stage.done, (100 : ℚ)) := by
  obtain ⟨b0, herr, hev, htx⟩ := upload_first_sync dev [] board h0 h1
  have hn : jsCeilDiv ([] : List Nat).length 128 = 0 := rfl
  rw [hn] at hev htx
  refine ⟨herr, ?_, ?_, ?_⟩
  · rw [htx]
    decide
  · rw [htx]
    decide
  · rw [hev]
    simp [pageEvents, verifyingEv, doneEv]

/-- Witness for C10: immediate sync on the Uno board, empty image. -/
theorem C10_empty_image_upload_witness :
    (promptDevice.openOk 0 = true ∧ syncSuccess (promptDevice.resp 1) = true)
    ∧ ((uploadToArduino promptDevice [] unoBoard).error = none
      ∧ (uploadToArduino promptDevice [] unoBoard).tx.filter
          (fun w => w.headD 0 == STK_LOAD_ADDRESS || w.headD 0 == STK_PROG_PAGE) = []
      ∧ (uploadToArduino promptDevice [] unoBoard).tx.getLast?
          = some [STK_LEAVE_PROGMODE, CRC_EOP]
      ∧ (uploadToArduino promptDevice [] unoBoard).events.getLast?.map
          (fun e => (e.stage, e.progress)) = some (Stage.done, (100 : ℚ))) :=
  ⟨⟨rfl, by decide⟩, C10_empty_image_upload promptDevice unoBoard rfl (by decide)⟩

end Arduide
